import Mathlib

/-!
Verification development for the Hive SDK (`packages/sdk/src/index.ts`) and
the dispatcher queue/claim protocol described in the repository's design
documents.  The SDK client is embedded directly from the TypeScript source;
the dispatcher core (queue, claim coordinator, status tracker), which is not
present in the repository's source tree, is modelled from the specification.
-/

/-! ## JSON values

JavaScript runtime values as they appear after `JSON.parse` / before
`JSON.stringify`.  Object fields keep insertion order, as JS objects do. -/

inductive Json where
  | null
  | bool (b : Bool)
  | num (n : Int)
  | str (s : String)
  | arr (xs : List Json)
  | obj (fields : List (String × Json))

/-- JavaScript truthiness of a value (`if (x)` semantics): `null`, `false`,
`0` and `""` are falsy; arrays and objects are truthy. -/
def Json.truthy : Json → Bool
  | .null => false
  | .bool b => b
  | .num n => n != 0
  | .str s => !s.isEmpty
  | .arr _ => true
  | .obj _ => true

/-- JavaScript property access `j.key`: looks the key up on an object,
anything else yields `undefined` (modelled as `none`). -/
def jsGet (j : Json) (key : String) : Option Json :=
  match j with
  | .obj fs => (fs.find? (fun f => f.1 = key)).map (fun f => f.2)
  | _ => none

/-- Truthiness of a possibly-`undefined` value (`undefined` is falsy). -/
def jsTruthy : Option Json → Bool
  | none => false
  | some j => j.truthy

/-- Escaping of one character inside a JSON string literal, as
`JSON.stringify` performs it (quotes, backslashes, newlines). -/
def jsonEscapeChar (c : Char) : String :=
  if c = '\"' then "\\\""
  else if c = '\\' then "\\\\"
  else if c = '\n' then "\\n"
  else String.singleton c

/-- Escaping of a whole string for inclusion in JSON output. -/
def jsonEscape (s : String) : String :=
  String.join (s.data.map jsonEscapeChar)

mutual

/-- `JSON.stringify` on a runtime value: compact output, object fields in
insertion order. -/
def stringifyJson : Json → String
  | .null => "null"
  | .bool b => if b then "true" else "false"
  | .num n => toString n
  | .str s => "\"" ++ jsonEscape s ++ "\""
  | .arr xs => "[" ++ stringifyArr xs ++ "]"
  | .obj fs => "\x7b" ++ stringifyObj fs ++ "\x7d"

/-- Comma-separated serialization of the elements of a JSON array. -/
def stringifyArr : List Json → String
  | [] => ""
  | [x] => stringifyJson x
  | x :: y :: xs => stringifyJson x ++ "," ++ stringifyArr (y :: xs)

/-- Comma-separated serialization of the fields of a JSON object. -/
def stringifyObj : List (String × Json) → String
  | [] => ""
  | [f] => "\"" ++ jsonEscape f.1 ++ "\":" ++ stringifyJson f.2
  | f :: g :: fs =>
      "\"" ++ jsonEscape f.1 ++ "\":" ++ stringifyJson f.2 ++ "," ++
        stringifyObj (g :: fs)

end

/-! ## HTTP wire model -/

inductive Method where
  | GET
  | POST
deriving DecidableEq

/-- An outgoing HTTP request as assembled by the SDK: method, absolute URL,
the headers explicitly set in the `fetch`/`undici` init object, and an
optional string body. -/
structure HttpRequest where
  method : Method
  url : String
  headers : List (String × String)
  body : Option String
deriving DecidableEq

/-- A dispatcher HTTP response as observed by the client.  `bodyJson` is the
result of parsing `bodyText` as JSON (`none` when the text is not JSON). -/
structure HttpResponse where
  status : Nat
  statusText : String
  bodyText : String
  bodyJson : Option Json

/-- `res.ok` of the Fetch API: status in the inclusive range 200–299. -/
def HttpResponse.ok (r : HttpResponse) : Bool :=
  200 ≤ r.status && r.status ≤ 299

/-! ## SDK data types (`packages/sdk/src/index.ts`) -/

/-- A job payload as passed to `HiveClient.enqueue` (the `EnqueueBody`
shape).  `task` is an arbitrary runtime string — TypeScript's enum type is
compile-time only, so invalid kinds can reach the client at runtime. -/
structure Job where
  jobId : String
  task : String
  instructions : String
  repo : Option String := none
  branch : Option String := none
  base : Option String := none
  githubToken : Option String := none
  metadata : Option (List (String × String)) := none
deriving DecidableEq

/-- The closed set of task kinds accepted by `EnqueueSchema`
(`z.enum(["agent", "script", "custom"])`). -/
def taskKinds : List String := ["agent", "script", "custom"]

/-- Validation performed by `EnqueueSchema.parse` (index.ts lines 7–16):
`jobId` and `instructions` are strings (structural here), `task` must be one
of the three kinds, and `repo`, when present, must be a URL.  URL validity
(`z.string().url()`) is delegated to the `isUrl` oracle. -/
def EnqueueSchema.check (isUrl : String → Bool) (j : Job) : Bool :=
  taskKinds.contains j.task &&
    (match j.repo with
     | none => true
     | some r => isUrl r)

/-- A worker callback payload (the `CallbackPayload` shape). -/
structure CallbackPayload where
  claimId : String
  workerId : String
  status : String
  logs : Option String := none
  metadata : Option (List (String × String)) := none
deriving DecidableEq

/-- The JSON value `JSON.stringify` sees for a `Job`: fields in declaration
order, absent optional fields omitted (as `undefined` properties are). -/
def jobToJson (j : Job) : Json :=
  Json.obj
    ([("jobId", Json.str j.jobId), ("task", Json.str j.task),
      ("instructions", Json.str j.instructions)]
      ++ (match j.repo with
          | some r => [("repo", Json.str r)]
          | none => [])
      ++ (match j.branch with
          | some b => [("branch", Json.str b)]
          | none => [])
      ++ (match j.base with
          | some b => [("base", Json.str b)]
          | none => [])
      ++ (match j.githubToken with
          | some t => [("githubToken", Json.str t)]
          | none => [])
      ++ (match j.metadata with
          | some m => [("metadata", Json.obj (m.map (fun kv => (kv.1, Json.str kv.2))))]
          | none => []))

/-- The JSON value `JSON.stringify` sees for a `CallbackPayload`. -/
def payloadToJson (p : CallbackPayload) : Json :=
  Json.obj
    ([("claimId", Json.str p.claimId), ("workerId", Json.str p.workerId),
      ("status", Json.str p.status)]
      ++ (match p.logs with
          | some l => [("logs", Json.str l)]
          | none => [])
      ++ (match p.metadata with
          | some m => [("metadata", Json.obj (m.map (fun kv => (kv.1, Json.str kv.2))))]
          | none => []))

/-- `normalizeBaseUrl`: `baseUrl.replace(/\/$/, "")` — strip one trailing
slash (implemented over the character list). -/
def normalizeBaseUrl (baseUrl : String) : String :=
  if baseUrl.data.getLast? = some '/' then String.mk baseUrl.data.dropLast
  else baseUrl

/-- Client state: base URL plus the two optional secrets, exactly the three
private fields of the `HiveClient` class. -/
structure HiveClient where
  baseUrl : String
  internalToken : Option String := none
  callbackSecret : Option String := none
deriving DecidableEq

/-- The `HiveClient` constructor: normalizes the base URL and stores the two
optional secrets. -/
def HiveClient.make (baseUrl : String)
    (internalToken callbackSecret : Option String) : HiveClient :=
  { baseUrl := normalizeBaseUrl baseUrl
    internalToken := internalToken
    callbackSecret := callbackSecret }

/-- Request built by `HiveClient.health`: bare GET to `/health`. -/
def HiveClient.healthRequest (c : HiveClient) : HttpRequest :=
  { method := .GET, url := c.baseUrl ++ "/health", headers := [], body := none }

/-- Request built by `HiveClient.enqueue` (index.ts lines 63–73): POST to
`/enqueue`, `content-type` header, and — only when `this.internalToken` is
truthy (present and non-empty) — `authorization: Bearer <token>`.  The body
is `JSON.stringify(job)`, assembled unconditionally: the method performs no
schema validation. -/
def HiveClient.enqueueRequest (c : HiveClient) (j : Job) : HttpRequest :=
  { method := .POST
    url := c.baseUrl ++ "/enqueue"
    headers := ("content-type", "application/json") ::
      (match c.internalToken with
       | some t => if t.isEmpty then [] else [("authorization", "Bearer " ++ t)]
       | none => [])
    body := some (stringifyJson (jobToJson j)) }

/-- Request built by `HiveClient.claim` (index.ts lines 75–77): a bare POST
to `/claim` — no headers, no body, and the method takes no arguments. -/
def HiveClient.claimRequest (c : HiveClient) : HttpRequest :=
  { method := .POST, url := c.baseUrl ++ "/claim", headers := [], body := none }

/-- Request built by `HiveClient.callback` (index.ts lines 79–89): POST to
`/callback` with `content-type` and — only when `this.callbackSecret` is
truthy — the `x-callback-secret` header; body is the serialized payload. -/
def HiveClient.callbackRequest (c : HiveClient) (body : Json) : HttpRequest :=
  { method := .POST
    url := c.baseUrl ++ "/callback"
    headers := ("content-type", "application/json") ::
      (match c.callbackSecret with
       | some s => if s.isEmpty then [] else [("x-callback-secret", s)]
       | none => [])
    body := some (stringifyJson body) }

/-- Outcome of a `requestJson` call: a resolved parsed body, or a thrown
`Error` carrying its message string. -/
inductive FetchResult where
  | ok (data : Json)
  | thrown (msg : String)

/-- The fetch-based `requestJson` (index.ts lines 190–199): on a non-2xx
response it throws ``HTTP ${status} ${statusText}: ${text}``; on a 2xx
response it returns `res.json()`, which throws a parse error on a body that
is not JSON — modelled as a fixed message. -/
def requestJsonFetch (resp : HttpResponse) : FetchResult :=
  if resp.ok then
    match resp.bodyJson with
    | some j => .ok j
    | none => .thrown "SyntaxError: unexpected JSON input"
  else
    .thrown ("HTTP " ++ toString resp.status ++ " " ++ resp.statusText ++ ": "
      ++ resp.bodyText)

/-- The undici-based `requestJson` (index.ts lines 36–40): never inspects
the status; it returns `response.body.json()` for any response, throwing
only when the body is not JSON. -/
def requestJsonUndici (resp : HttpResponse) : FetchResult :=
  match resp.bodyJson with
  | some j => .ok j
  | none => .thrown "SyntaxError: unexpected JSON input"

/-! A dispatcher is abstracted as a function from the request the client
sends to the response the client observes.  Each client operation builds
its request, sends it, and hands the response to `requestJson`. -/

/-- `HiveClient.health` run against a dispatcher (fetch-based copy). -/
def healthRun (c : HiveClient) (dispatch : HttpRequest → HttpResponse) : FetchResult :=
  requestJsonFetch (dispatch c.healthRequest)

/-- `HiveClient.enqueue` run against a dispatcher (fetch-based copy). -/
def enqueueRun (c : HiveClient) (j : Job)
    (dispatch : HttpRequest → HttpResponse) : FetchResult :=
  requestJsonFetch (dispatch (c.enqueueRequest j))

/-- `HiveClient.claim` run against a dispatcher (fetch-based copy). -/
def claimRun (c : HiveClient) (dispatch : HttpRequest → HttpResponse) : FetchResult :=
  requestJsonFetch (dispatch c.claimRequest)

/-- `HiveClient.callback` run against a dispatcher (fetch-based copy). -/
def callbackRun (c : HiveClient) (p : CallbackPayload)
    (dispatch : HttpRequest → HttpResponse) : FetchResult :=
  requestJsonFetch (dispatch (c.callbackRequest (payloadToJson p)))

/-- `HiveClient.claim` of the undici-based copy run against a dispatcher. -/
def claimRunUndici (c : HiveClient) (dispatch : HttpRequest → HttpResponse) : FetchResult :=
  requestJsonUndici (dispatch c.claimRequest)

/-! ## Next.js route helpers -/

/-- A `Response` as constructed by the route helpers. -/
structure NextResponse where
  status : Nat
  body : String
  headers : List (String × String)

/-- What a route handler's promise does: resolve with a `Response`, or
reject with the error thrown inside it. -/
inductive RouteResult where
  | response (r : NextResponse)
  | rejected (msg : String)

/-- Handler produced by `createNextClaimRoute` (index.ts lines 304–317):
awaits `client.claim()` and wraps the resolved data in a `Response` with
status 200 unconditionally; an exception from the client rejects the
handler's promise. -/
def createNextClaimRoute (c : HiveClient)
    (dispatch : HttpRequest → HttpResponse) : RouteResult :=
  match claimRun c dispatch with
  | .ok data =>
      .response { status := 200, body := stringifyJson data
                  headers := [("content-type", "application/json")] }
  | .thrown e => .rejected e

/-- Handler produced by `createNextCallbackRoute` (index.ts lines 325–340):
forwards the incoming JSON body to `client.callback` and answers with
status `data.ok ? 200 : 401`. -/
def createNextCallbackRoute (c : HiveClient)
    (dispatch : HttpRequest → HttpResponse) (body : Json) : RouteResult :=
  match requestJsonFetch (dispatch (c.callbackRequest body)) with
  | .ok data =>
      .response { status := if jsTruthy (jsGet data "ok") then 200 else 401
                  body := stringifyJson data
                  headers := [("content-type", "application/json")] }
  | .thrown e => .rejected e

/-! ## Dispatcher core

The dispatcher service (`apps/dispatcher`) is not present in the source
tree — the developer notes describe it as upcoming, and only its protocol
is documented.  The definitions below are therefore modelled from the
specification's §3–§4 (job record store, queue, claim coordinator, status
tracker), with concurrent callers represented by an arbitrary serialization
of the atomic operations, as licensed by the spec's single
mutual-exclusion discipline (§5). -/

/-- Modelled from the spec: the job lifecycle states of §3 —
`pending → claimed → running → (succeeded | failed)`. -/
inductive JobState where
  | pending
  | claimed
  | running
  | succeeded
  | failed
deriving DecidableEq

/-- Modelled from the spec: one entry of the Job Record Store — the
immutable submitted job plus its lifecycle state, latest logs, and the
accumulated (shallow-merged) metadata. -/
structure JobRecord where
  job : Job
  state : JobState
  logs : Option String
  metadata : List (String × String)
deriving DecidableEq

/-- Modelled from the spec: an active claim record binding
`jobId ↔ workerId` (the `claimId` is the key it is stored under). -/
structure ClaimRec where
  jobId : String
  workerId : String
deriving DecidableEq

/-- Modelled from the spec: the dispatcher's whole state — record store
(keyed by `jobId`, insertion order), FIFO queue of pending `jobId`s, the
active-claims set (keyed by `claimId`), the set of terminally closed
`claimId`s (needed to answer `ClaimClosed` rather than `UnknownClaim`), and
a counter for generating fresh claim ids. -/
structure DispatcherState where
  records : List (String × JobRecord)
  queue : List String
  active : List (String × ClaimRec)
  closed : List String
  nextClaimId : Nat
deriving DecidableEq

/-- Modelled from the spec: the dispatcher's state at process start —
everything empty. -/
def initialState : DispatcherState :=
  { records := [], queue := [], active := [], closed := [], nextClaimId := 0 }

/-- Lookup of a job record by `jobId` (first match in the store). -/
def lookupRec (recs : List (String × JobRecord)) (jid : String) : Option JobRecord :=
  (recs.find? (fun r => r.1 = jid)).map (fun r => r.2)

/-- Store update that replaces the lifecycle state of the record keyed by
`jid`, leaving every other field and record untouched. -/
def setJobState (recs : List (String × JobRecord)) (jid : String)
    (st : JobState) : List (String × JobRecord) :=
  recs.map (fun r => if r.1 = jid then (r.1, { r.2 with state := st }) else r)

/-- Modelled from the spec: result of an `enqueue` call (§4.1, §6) —
acceptance with the new queue length, or `DuplicateJob`. -/
inductive EnqueueResult where
  | accepted (queueLength : Nat)
  | duplicateJob
deriving DecidableEq

/-- The store entry created for a freshly submitted job: `pending` state,
no logs yet, initial metadata taken from the submission. -/
def pendingEntry (j : Job) : String × JobRecord :=
  (j.jobId, { job := j, state := .pending, logs := none
              metadata := j.metadata.getD [] })

/-- Modelled from the spec: `enqueue(job)` (§4.1).  Fails with
`DuplicateJob` when the `jobId` already exists anywhere in the store;
otherwise appends the id to the queue tail and stores a `pending` record
carrying the job's submitted fields and initial metadata. -/
def enqueue (s : DispatcherState) (j : Job) : EnqueueResult × DispatcherState :=
  if s.records.any (fun r => r.1 = j.jobId) then
    (.duplicateJob, s)
  else
    (.accepted (s.queue.length + 1),
     { s with
       records := s.records ++ [pendingEntry j]
       queue := s.queue ++ [j.jobId] })

/-- Modelled from the spec: result of a `claim(workerId)` call (§4.2) —
the full job payload plus a fresh `claimId`, "no job available" on an
empty queue, or the fatal store/queue-disagreement error of §7. -/
inductive ClaimResult where
  | granted (payload : Job) (claimId : String)
  | noJob
  | storeError
deriving DecidableEq

/-- Modelled from the spec: `claim(workerId)` (§4.2).  On a non-empty queue
it atomically dequeues the head, generates a fresh `claimId`
(`"c-1"`, `"c-2"`, … as in the §8 scenario), records the claim, transitions
the job to `claimed` and returns the payload with the `claimId`.  A head id
missing from the store is the fatal internal invariant violation of §7. -/
def claim (s : DispatcherState) (workerId : String) : ClaimResult × DispatcherState :=
  match s.queue with
  | [] => (.noJob, s)
  | jid :: rest =>
    match lookupRec s.records jid with
    | none => (.storeError, s)
    | some rec =>
      let cid := "c-" ++ toString (s.nextClaimId + 1)
      (.granted rec.job cid,
       { records := setJobState s.records jid .claimed
         queue := rest
         active := s.active ++ [(cid, { jobId := jid, workerId := workerId })]
         closed := s.closed
         nextClaimId := s.nextClaimId + 1 })

/-- Modelled from the spec: the status values a worker may report (§4.3). -/
inductive ReportStatus where
  | running
  | succeeded
  | failed
deriving DecidableEq

/-- `succeeded` and `failed` are the terminal statuses. -/
def ReportStatus.isTerminal : ReportStatus → Bool
  | .running => false
  | .succeeded => true
  | .failed => true

/-- Modelled from the spec: the protocol-violation errors of `reportStatus`
(§4.3, §7). -/
inductive ReportError where
  | unknownClaim
  | claimMismatch
  | claimClosed
deriving DecidableEq

/-- Outcome of a `reportStatus` call. -/
inductive ReportOutcome where
  | ok
  | err (e : ReportError)
deriving DecidableEq

/-- Modelled from the spec: shallow metadata merge (§4.3, §9) — new keys
overwrite existing keys of the same name, unspecified keys are retained. -/
def mergeMeta (old new : List (String × String)) : List (String × String) :=
  old.map (fun kv =>
    match new.find? (fun nv => nv.1 = kv.1) with
    | some nv => nv
    | none => kv)
  ++ new.filter (fun nv => !(old.any (fun kv => kv.1 = nv.1)))

/-- Record update applied by an accepted report: new lifecycle state,
replace logs when supplied, shallow-merge the metadata. -/
def applyReport (recs : List (String × JobRecord)) (jid : String)
    (st : JobState) (logs : Option String)
    (meta : List (String × String)) : List (String × JobRecord) :=
  recs.map (fun r =>
    if r.1 = jid then
      (r.1, { job := r.2.job, state := st
              logs := match logs with
                      | some l => some l
                      | none => r.2.logs
              metadata := mergeMeta r.2.metadata meta })
    else r)

/-- Modelled from the spec: `reportStatus(claimId, workerId, status, logs?,
metadata?)` (§4.3).  A closed claim answers `ClaimClosed`; an unknown
`claimId` answers `UnknownClaim`; a `workerId` differing from the claim's
recorded worker answers `ClaimMismatch`.  An accepted report updates the
job record; a terminal report additionally removes the claim from the
active set and marks it closed. -/
def reportStatus (s : DispatcherState) (claimId workerId : String)
    (st : ReportStatus) (logs : Option String)
    (meta : List (String × String)) : ReportOutcome × DispatcherState :=
  if claimId ∈ s.closed then
    (.err .claimClosed, s)
  else
    match (s.active.find? (fun a => a.1 = claimId)).map (fun a => a.2) with
    | none => (.err .unknownClaim, s)
    | some cr =>
      if cr.workerId ≠ workerId then
        (.err .claimMismatch, s)
      else
        let newState : JobState :=
          match st with
          | .running => .running
          | .succeeded => .succeeded
          | .failed => .failed
        let recs := applyReport s.records cr.jobId newState logs meta
        if st.isTerminal then
          (.ok,
           { s with
             records := recs
             active := s.active.filter (fun a => !(a.1 = claimId))
             closed := s.closed ++ [claimId] })
        else
          (.ok, { s with records := recs })

/-! Sequencing helpers: spec §5 serializes all core operations behind one
mutual-exclusion discipline, so any set of concurrent calls is observed as
some sequence of atomic steps. -/

/-- Fold a list of submissions through `enqueue`, keeping the final state. -/
def enqueueAll (s : DispatcherState) (js : List Job) : DispatcherState :=
  js.foldl (fun s j => (enqueue s j).2) s

/-- Run one `claim` per worker in `ws`, collecting the results in order. -/
def claimSeq (s : DispatcherState) (ws : List String) :
    List ClaimResult × DispatcherState :=
  match ws with
  | [] => ([], s)
  | w :: rest =>
    let step := claim s w
    let tail := claimSeq step.2 rest
    (step.1 :: tail.1, tail.2)

/-- The `jobId`s of the successfully granted claims, in order. -/
def grantedJobIds (rs : List ClaimResult) : List String :=
  rs.filterMap (fun r =>
    match r with
    | .granted j _ => some j.jobId
    | _ => none)

/-- One `reportStatus` invocation, as data. -/
structure ReportCall where
  claimId : String
  workerId : String
  status : ReportStatus
  logs : Option String
  metadata : List (String × String)
deriving DecidableEq

/-- Fold a list of report calls through `reportStatus`, keeping the final
state. -/
def reportSeq (s : DispatcherState) (cs : List ReportCall) : DispatcherState :=
  cs.foldl (fun s c => (reportStatus s c.claimId c.workerId c.status c.logs c.metadata).2) s

/-- One queued id is well-formed against a store: it resolves to a record
whose stored job carries that same id. -/
def wfJid (recs : List (String × JobRecord)) (jid : String) : Bool :=
  match lookupRec recs jid with
  | some rec => rec.job.jobId = jid
  | none => false

/-- Well-formedness of the queue against the store: every queued id resolves
to a record whose stored job carries that same id. -/
def wfQueue (s : DispatcherState) : Bool :=
  s.queue.all (wfJid s.records)

/-! ## Concrete fixtures used by witnesses and counterexamples -/

/-- The demo job of the README quick-start. -/
def demoJob : Job :=
  { jobId := "demo-1", task := "agent", instructions := "Add README quickstart"
    repo := some "https://github.com/jobrayan/codimir-web.git"
    branch := some "ci/demo", base := some "main"
    githubToken := some "ghp_x", metadata := none }

/-- A payload whose `task` kind is outside `EnqueueSchema`'s enum. -/
def badJob : Job :=
  { jobId := "demo-1", task := "bogus", instructions := "noop" }

/-- A client configured with both secrets, as `envClient` would build it. -/
def demoClient : HiveClient :=
  HiveClient.make "http://localhost:8099" (some "tok") (some "sec")

/-- A dispatcher 401 response with a JSON body. -/
def resp401 : HttpResponse :=
  { status := 401, statusText := "Unauthorized"
    bodyText := "\x7b\"ok\":false\x7d"
    bodyJson := some (Json.obj [("ok", Json.bool false)]) }

/-- A dispatcher 200 response carrying `\x7b"job":null\x7d`. -/
def resp200 : HttpResponse :=
  { status := 200, statusText := "OK"
    bodyText := "\x7b\"job\":null\x7d"
    bodyJson := some (Json.obj [("job", Json.null)]) }

/-- A dispatcher 200 response whose JSON body reports a failed callback. -/
def respCbFail : HttpResponse :=
  { status := 200, statusText := "OK"
    bodyText := "\x7b\"ok\":false,\"error\":\"ClaimClosed\"\x7d"
    bodyJson := some (Json.obj [("ok", Json.bool false), ("error", Json.str "ClaimClosed")]) }

/-- The README worker-callback example payload. -/
def demoPayload : CallbackPayload :=
  { claimId := "c-1", workerId := "w-1", status := "succeeded"
    logs := some "done", metadata := none }

/-! ## C1 — client-side schema validation before enqueue -/

/-- C1 counterexample: `badJob` fails `EnqueueSchema` (its `task` is not one
of "agent"/"script"/"custom"), yet `HiveClient.enqueue` still assembles and
submits the full request carrying that payload — the client performs no
schema validation and rejects nothing. -/
theorem enqueue_sends_schema_invalid_payload :
    EnqueueSchema.check (fun _ => true) badJob = false
    ∧ demoClient.enqueueRequest badJob =
        { method := .POST
          url := "http://localhost:8099/enqueue"
          headers := [("content-type", "application/json"),
                      ("authorization", "Bearer tok")]
          body := some (stringifyJson (jobToJson badJob)) }
    ∧ enqueueRun demoClient badJob (fun _ => resp200)
        = .ok (Json.obj [("job", Json.null)]) := by
  exact ⟨by decide, by decide, rfl⟩

/-- C1 (amended): `HiveClient.enqueue` submits every payload unchanged —
for any client and any job, schema-valid or not, the enqueue request is a
POST to `/enqueue` whose body is the serialized job.  The `EnqueueSchema`
export exists for consuming apps; the client itself never validates or
rejects a payload. -/
theorem enqueue_submits_every_payload (c : HiveClient) (j : Job) :
    (c.enqueueRequest j).method = .POST
    ∧ (c.enqueueRequest j).url = c.baseUrl ++ "/enqueue"
    ∧ (c.enqueueRequest j).body = some (stringifyJson (jobToJson j)) :=
  ⟨rfl, rfl, rfl⟩

/-! ## C2 — claim carries a workerId -/

/-- C2 counterexample: the claim request of a concretely configured client
is a bare POST with no headers and no body — no `workerId` (indeed nothing
at all) accompanies the request, and `HiveClient.claim` takes no
`workerId` argument in the first place. -/
theorem claim_request_carries_no_worker_identity :
    demoClient.claimRequest =
      { method := .POST, url := "http://localhost:8099/claim"
        headers := [], body := none } := by
  decide

/-- C2 (amended): `HiveClient.claim` takes no `workerId`; for every client
the claim request is a bare POST to `/claim` with empty headers and no
body, so no caller-supplied worker identity accompanies a claim.  Worker
identity first appears in the `reportStatus` callback payload. -/
theorem claim_request_is_bare_post (c : HiveClient) :
    c.claimRequest =
      { method := .POST, url := c.baseUrl ++ "/claim"
        headers := [], body := none } :=
  rfl

/-! ## C3 — each secret is attached to exactly its own operation -/

/-- C3: with both secrets configured (present and non-empty, i.e. truthy),
the enqueue request carries exactly `content-type` plus the bearer-style
`authorization` header built from the submission secret; the callback
request carries exactly `content-type` plus `x-callback-secret` built from
the distinct callback secret; and the claim request carries no headers and
no body at all.  Neither secret ever appears on the other operation. -/
theorem secrets_attached_to_correct_operations (base tok cb : String)
    (j : Job) (body : Json)
    (htok : tok.isEmpty = false) (hcb : cb.isEmpty = false) :
    ((HiveClient.make base (some tok) (some cb)).enqueueRequest j).headers
        = [("content-type", "application/json"), ("authorization", "Bearer " ++ tok)]
    ∧ ((HiveClient.make base (some tok) (some cb)).callbackRequest body).headers
        = [("content-type", "application/json"), ("x-callback-secret", cb)]
    ∧ ((HiveClient.make base (some tok) (some cb)).claimRequest).headers = []
    ∧ ((HiveClient.make base (some tok) (some cb)).claimRequest).body = none := by
  refine ⟨?_, ?_, rfl, rfl⟩
  · simp [HiveClient.make, HiveClient.enqueueRequest, htok]
  · simp [HiveClient.make, HiveClient.callbackRequest, hcb]

/-- Witness for C3 at a concrete client with both secrets set. -/
theorem secrets_attached_witness :
    ("tok" : String).isEmpty = false
    ∧ ("sec" : String).isEmpty = false
    ∧ (((HiveClient.make "http://h" (some "tok") (some "sec")).enqueueRequest demoJob).headers
        = [("content-type", "application/json"), ("authorization", "Bearer " ++ "tok")]
      ∧ ((HiveClient.make "http://h" (some "tok") (some "sec")).callbackRequest Json.null).headers
        = [("content-type", "application/json"), ("x-callback-secret", "sec")]
      ∧ ((HiveClient.make "http://h" (some "tok") (some "sec")).claimRequest).headers = []
      ∧ ((HiveClient.make "http://h" (some "tok") (some "sec")).claimRequest).body = none) :=
  ⟨rfl, rfl,
   secrets_attached_to_correct_operations "http://h" "tok" "sec" demoJob Json.null rfl rfl⟩

/-! ## C7 — secrets do not interfere with results or error output -/

/-- C7: two-run noninterference of the configured secrets with the client's
observable outcome.  For a fixed dispatcher response, every operation of a
client configured with one pair of secrets resolves or throws exactly as
the same operation of a client configured with any other pair: the
response processing — including the thrown `HTTP <status> <statusText>:
<body>` error text — is built from the response alone and never from
`internalToken` or `callbackSecret`. -/
theorem secrets_noninterference (base : String) (tok₁ cb₁ tok₂ cb₂ : Option String)
    (resp : HttpResponse) (j : Job) (p : CallbackPayload) :
    healthRun (HiveClient.make base tok₁ cb₁) (fun _ => resp)
        = healthRun (HiveClient.make base tok₂ cb₂) (fun _ => resp)
    ∧ enqueueRun (HiveClient.make base tok₁ cb₁) j (fun _ => resp)
        = enqueueRun (HiveClient.make base tok₂ cb₂) j (fun _ => resp)
    ∧ claimRun (HiveClient.make base tok₁ cb₁) (fun _ => resp)
        = claimRun (HiveClient.make base tok₂ cb₂) (fun _ => resp)
    ∧ callbackRun (HiveClient.make base tok₁ cb₁) p (fun _ => resp)
        = callbackRun (HiveClient.make base tok₂ cb₂) p (fun _ => resp) :=
  ⟨rfl, rfl, rfl, rfl⟩

/-! ## C8 — equivalence of the undici-based and fetch-based clients -/

/-- C8 counterexample: against a dispatcher that answers 401 with the JSON
body `\x7b"ok":false\x7d`, the undici-based claim resolves with the parsed body
while the fetch-based claim throws an `HTTP 401` error — the two embedded
implementations are not observationally equivalent on non-2xx responses. -/
theorem undici_fetch_copies_not_equivalent :
    claimRunUndici demoClient (fun _ => resp401) = .ok (Json.obj [("ok", Json.bool false)])
    ∧ claimRun demoClient (fun _ => resp401)
        = .thrown ("HTTP 401 Unauthorized: " ++ "\x7b\"ok\":false\x7d")
    ∧ claimRunUndici demoClient (fun _ => resp401) ≠ claimRun demoClient (fun _ => resp401) := by
  have h1 : claimRunUndici demoClient (fun _ => resp401)
      = .ok (Json.obj [("ok", Json.bool false)]) := rfl
  have h2 : claimRun demoClient (fun _ => resp401)
      = .thrown ("HTTP 401 Unauthorized: " ++ "\x7b\"ok\":false\x7d") := rfl
  refine ⟨h1, h2, ?_⟩
  rw [h1, h2]
  intro h
  exact FetchResult.noConfusion h

/-- C8 (amended): the two `requestJson` copies agree exactly on successful
exchanges — for every 2xx response whose body parses as JSON, both the
undici-based and the fetch-based implementation return the parsed body.
They diverge on non-2xx responses, where only the fetch-based copy throws. -/
theorem requestJson_copies_agree_on_ok (resp : HttpResponse) (j : Json)
    (hok : resp.ok = true) (hjson : resp.bodyJson = some j) :
    requestJsonUndici resp = .ok j ∧ requestJsonFetch resp = .ok j := by
  constructor
  · simp [requestJsonUndici, hjson]
  · simp [requestJsonFetch, hok, hjson]

/-- Witness for the amended C8 at a concrete 200 response. -/
theorem requestJson_copies_agree_witness :
    resp200.ok = true
    ∧ resp200.bodyJson = some (Json.obj [("job", Json.null)])
    ∧ (requestJsonUndici resp200 = .ok (Json.obj [("job", Json.null)])
      ∧ requestJsonFetch resp200 = .ok (Json.obj [("job", Json.null)])) :=
  ⟨rfl, rfl, requestJson_copies_agree_on_ok resp200 (Json.obj [("job", Json.null)]) rfl rfl⟩

/-! ## C9 — the Next.js claim route always answers 200 -/

/-- C9: whenever the proxied `client.claim()` resolves — with a job
payload, with `\x7b"job":null\x7d`, or with an `\x7b"error":...\x7d` body, all of which
are `.ok data` outcomes — the handler produced by `createNextClaimRoute`
responds with status 200 and a body that is exactly the JSON serialization
of that outcome.  No resolved claim outcome is mapped to any other
status. -/
theorem nextClaimRoute_always_200 (c : HiveClient)
    (dispatch : HttpRequest → HttpResponse) (data : Json)
    (h : claimRun c dispatch = .ok data) :
    createNextClaimRoute c dispatch = .response
      { status := 200, body := stringifyJson data
        headers := [("content-type", "application/json")] } := by
  simp [createNextClaimRoute, h]

/-- Witness for C9 at a concrete dispatcher answering `\x7b"job":null\x7d`. -/
theorem nextClaimRoute_always_200_witness :
    claimRun demoClient (fun _ => resp200) = .ok (Json.obj [("job", Json.null)])
    ∧ createNextClaimRoute demoClient (fun _ => resp200) = .response
        { status := 200, body := stringifyJson (Json.obj [("job", Json.null)])
          headers := [("content-type", "application/json")] } :=
  ⟨rfl, nextClaimRoute_always_200 demoClient (fun _ => resp200)
          (Json.obj [("job", Json.null)]) rfl⟩

/-! ## C10 — the Next.js callback route mirrors `ok` as 200/401 -/

/-- C10: when the forwarded callback resolves with a result whose `ok`
field is the boolean `b`, the handler produced by `createNextCallbackRoute`
responds with status 200 for `b = true` and 401 for `b = false` — every
failed result, whatever its `error` field says (`Unauthorized`,
`UnknownClaim`, `ClaimMismatch` or `ClaimClosed`), is collapsed to 401. -/
theorem nextCallbackRoute_mirrors_ok (c : HiveClient)
    (dispatch : HttpRequest → HttpResponse) (body data : Json) (b : Bool)
    (h : requestJsonFetch (dispatch (c.callbackRequest body)) = .ok data)
    (hok : jsGet data "ok" = some (Json.bool b)) :
    createNextCallbackRoute c dispatch body = .response
      { status := if b then 200 else 401, body := stringifyJson data
        headers := [("content-type", "application/json")] } := by
  simp [createNextCallbackRoute, h, jsTruthy, hok, Json.truthy]

/-- Witness for C10 at a concrete failed result: the route answers 401. -/
theorem nextCallbackRoute_mirrors_ok_witness :
    requestJsonFetch ((fun _ => respCbFail) (demoClient.callbackRequest (payloadToJson demoPayload)))
        = .ok (Json.obj [("ok", Json.bool false), ("error", Json.str "ClaimClosed")])
    ∧ jsGet (Json.obj [("ok", Json.bool false), ("error", Json.str "ClaimClosed")]) "ok"
        = some (Json.bool false)
    ∧ createNextCallbackRoute demoClient (fun _ => respCbFail) (payloadToJson demoPayload)
        = .response
          { status := 401
            body := stringifyJson (Json.obj [("ok", Json.bool false), ("error", Json.str "ClaimClosed")])
            headers := [("content-type", "application/json")] } :=
  ⟨rfl, rfl,
   nextCallbackRoute_mirrors_ok demoClient (fun _ => respCbFail)
     (payloadToJson demoPayload)
     (Json.obj [("ok", Json.bool false), ("error", Json.str "ClaimClosed")])
     false rfl rfl⟩

/-! ## Dispatcher lemmas -/

/-- `setJobState` never changes which record a `jobId` resolves to, nor the
immutable `job` field stored in it. -/
lemma lookupRec_setJobState_job (recs : List (String × JobRecord))
    (jid' : String) (st : JobState) (jid : String) :
    (lookupRec (setJobState recs jid' st) jid).map (fun r => r.job)
      = (lookupRec recs jid).map (fun r => r.job) := by
  unfold lookupRec setJobState
  rw [List.find?_map]
  have hpred : ((fun (r : String × JobRecord) => decide (r.1 = jid)) ∘
      (fun r => if r.1 = jid' then (r.1, { r.2 with state := st }) else r))
      = (fun (r : String × JobRecord) => decide (r.1 = jid)) := by
    funext r
    by_cases h : r.1 = jid' <;> simp [h]
  rw [hpred]
  cases hfind : recs.find? (fun r => decide (r.1 = jid)) with
  | none => rfl
  | some r =>
    by_cases h : r.1 = jid' <;> simp [h]

/-- Well-formedness of a queued id survives a `setJobState` update. -/
lemma wfJid_setJobState (recs : List (String × JobRecord)) (jid' : String)
    (st : JobState) (jid : String) :
    wfJid (setJobState recs jid' st) jid = wfJid recs jid := by
  have h := lookupRec_setJobState_job recs jid' st jid
  unfold wfJid
  cases h1 : lookupRec recs jid with
  | none =>
    rw [h1] at h
    cases h2 : lookupRec (setJobState recs jid' st) jid with
    | none => rfl
    | some r => rw [h2] at h; simp at h
  | some r =>
    rw [h1] at h
    cases h2 : lookupRec (setJobState recs jid' st) jid with
    | none => rw [h2] at h; simp at h
    | some r' =>
      rw [h2] at h
      simp only [Option.map_some'] at h
      rw [Option.some.injEq] at h
      simp [h]

/-- Central claim lemma: against any well-formed state, a serialized batch
of `claim` calls grants exactly the first `min |ws| N` queued jobs, in
queue order, and leaves the remaining suffix of the queue. -/
lemma claimSeq_take_drop : ∀ (ws : List String) (s : DispatcherState),
    wfQueue s = true →
    grantedJobIds (claimSeq s ws).1 = s.queue.take ws.length
    ∧ (claimSeq s ws).2.queue = s.queue.drop ws.length := by
  intro ws
  induction ws with
  | nil =>
    intro s _
    simp [claimSeq, grantedJobIds]
  | cons w rest ih =>
    intro s hwf
    cases hq : s.queue with
    | nil =>
      have hclaim : claim s w = (.noJob, s) := by
        unfold claim
        rw [hq]
      have hrest := ih s hwf
      rw [hq] at hrest
      simp only [List.take_nil, List.drop_nil] at hrest
      simp only [claimSeq, hclaim, grantedJobIds, List.filterMap_cons]
      constructor
      · simpa [grantedJobIds] using hrest.1
      · simpa using hrest.2
    | cons jid q' =>
      have hwf' := hwf
      unfold wfQueue at hwf'
      rw [hq, List.all_cons, Bool.and_eq_true] at hwf'
      obtain ⟨hhead, htail⟩ := hwf'
      unfold wfJid at hhead
      cases hrec : lookupRec s.records jid with
      | none => rw [hrec] at hhead; simp at hhead
      | some rec =>
        rw [hrec] at hhead
        simp only [decide_eq_true_eq] at hhead
        set s1 : DispatcherState :=
          { records := setJobState s.records jid .claimed
            queue := q'
            active := s.active ++
              [("c-" ++ toString (s.nextClaimId + 1), { jobId := jid, workerId := w })]
            closed := s.closed
            nextClaimId := s.nextClaimId + 1 } with hs1
        have hclaim : claim s w =
            (.granted rec.job ("c-" ++ toString (s.nextClaimId + 1)), s1) := by
          simp only [claim, hq, hrec]
        have hwf1 : wfQueue s1 = true := by
          unfold wfQueue
          have heq : wfJid (setJobState s.records jid .claimed) = wfJid s.records := by
            funext x
            exact wfJid_setJobState s.records jid .claimed x
          show q'.all (wfJid (setJobState s.records jid .claimed)) = true
          rw [heq]
          exact htail
        have hih := ih s1 hwf1
        have hih1 : grantedJobIds (claimSeq s1 rest).1 = q'.take rest.length := hih.1
        have hih2 : (claimSeq s1 rest).2.queue = q'.drop rest.length := hih.2
        constructor
        · simp only [claimSeq, hclaim, grantedJobIds, List.filterMap_cons,
            List.length_cons, List.take_succ_cons]
          rw [hhead]
          have : (claimSeq s1 rest).1.filterMap
              (fun r => match r with
                        | ClaimResult.granted j _ => some j.jobId
                        | _ => none) = q'.take rest.length := by
            simpa [grantedJobIds] using hih1
          simp [this]
        · simp only [claimSeq, hclaim, List.length_cons, List.drop_succ_cons]
          exact hih2

/-- A batch of claims against an empty queue returns only `noJob` and
leaves the state untouched. -/
lemma claimSeq_empty_queue : ∀ (ws : List String) (s : DispatcherState),
    s.queue = [] → claimSeq s ws = (List.replicate ws.length .noJob, s) := by
  intro ws
  induction ws with
  | nil =>
    intro s _
    simp [claimSeq]
  | cons w rest ih =>
    intro s h
    have hclaim : claim s w = (.noJob, s) := by
      unfold claim
      rw [h]
    simp [claimSeq, hclaim, ih s h, List.replicate_succ]

/-- Submitting a batch of jobs whose ids are pairwise distinct and fresh for
the store appends one pending record and one queue entry per job, in
submission order, and touches nothing else. -/
lemma enqueueAll_fresh : ∀ (js : List Job) (recs : List (String × JobRecord))
    (queue : List String) (active : List (String × ClaimRec))
    (closed : List String) (n : Nat),
    (js.map (fun j => j.jobId)).Nodup →
    (∀ j ∈ js, recs.any (fun r => r.1 = j.jobId) = false) →
    enqueueAll ⟨recs, queue, active, closed, n⟩ js =
      ⟨recs ++ js.map pendingEntry, queue ++ js.map (fun j => j.jobId),
       active, closed, n⟩ := by
  intro js
  induction js with
  | nil =>
    intro recs queue active closed n _ _
    simp [enqueueAll]
  | cons j js ih =>
    intro recs queue active closed n hnd hfresh
    have hj : recs.any (fun r => r.1 = j.jobId) = false := hfresh j (by simp)
    have hstep : (enqueue ⟨recs, queue, active, closed, n⟩ j).2 =
        ⟨recs ++ [pendingEntry j], queue ++ [j.jobId], active, closed, n⟩ := by
      simp only [enqueue, hj]
      simp
    have hnd' : (js.map (fun j => j.jobId)).Nodup := (List.nodup_cons.mp (by simpa using hnd)).2
    have hnotmem : j.jobId ∉ js.map (fun j => j.jobId) :=
      (List.nodup_cons.mp (by simpa using hnd)).1
    have hfresh' : ∀ j' ∈ js,
        (recs ++ [pendingEntry j]).any (fun r => r.1 = j'.jobId) = false := by
      intro j' hj'
      rw [List.any_append, Bool.or_eq_false_iff]
      refine ⟨hfresh j' (List.mem_cons_of_mem j hj'), ?_⟩
      simp only [List.any_cons, List.any_nil, Bool.or_false, pendingEntry]
      simp only [decide_eq_false_iff_not]
      intro hcontra
      exact hnotmem (hcontra ▸ List.mem_map_of_mem (fun j => j.jobId) hj')
    have := ih (recs ++ [pendingEntry j]) (queue ++ [j.jobId]) active closed n hnd' hfresh'
    unfold enqueueAll at *
    simp only [List.foldl_cons, hstep]
    rw [this]
    simp [List.append_assoc]

/-- Every id queued by a map-shaped store of pending entries resolves to
its own record. -/
lemma wfJid_pendingEntries : ∀ (js : List Job) (jid : String),
    jid ∈ js.map (fun j => j.jobId) → wfJid (js.map pendingEntry) jid = true := by
  intro js
  induction js with
  | nil => simp
  | cons j js ih =>
    intro jid hmem
    by_cases h : j.jobId = jid
    · unfold wfJid lookupRec
      rw [List.map_cons, List.find?_cons_of_pos _ (by simp [pendingEntry, h])]
      simp [pendingEntry, h]
    · have hmem' : jid ∈ js.map (fun j => j.jobId) := by
        rw [List.map_cons] at hmem
        rcases List.mem_cons.mp hmem with h1 | h1
        · exact absurd h1.symm h
        · exact h1
      have htail := ih jid hmem'
      unfold wfJid lookupRec at htail ⊢
      rw [List.map_cons, List.find?_cons_of_neg _ (by simp [pendingEntry, h])]
      exact htail

/-! ## C4 — strict FIFO claim order -/

/-- C4: for every sequence of submissions with pairwise-distinct `jobId`s
into a fresh dispatcher, followed by any sequence of claim calls, the
granted jobs are exactly the first `|ws|` enqueued ids in enqueue order
(strict FIFO — no priority, no reordering), and the queue that remains is
exactly the corresponding suffix: each successful claim removed precisely
the head. -/
theorem fifo_claim_order (js : List Job) (ws : List String)
    (hnd : (js.map (fun j => j.jobId)).Nodup) :
    grantedJobIds (claimSeq (enqueueAll initialState js) ws).1
        = (js.map (fun j => j.jobId)).take ws.length
    ∧ (claimSeq (enqueueAll initialState js) ws).2.queue
        = (js.map (fun j => j.jobId)).drop ws.length := by
  have hstate : enqueueAll initialState js =
      ⟨js.map pendingEntry, js.map (fun j => j.jobId), [], [], 0⟩ := by
    have h := enqueueAll_fresh js [] [] [] [] 0 hnd (fun j _ => rfl)
    simpa [initialState] using h
  rw [hstate]
  exact claimSeq_take_drop ws _ (by
    unfold wfQueue
    exact List.all_eq_true.mpr (fun jid hjid => wfJid_pendingEntries js jid hjid))

/-- A second demo job with a distinct id. -/
def demoJob2 : Job :=
  { jobId := "demo-2", task := "script", instructions := "Run tests" }

/-- Witness for C4: two distinct jobs, three claim attempts — the two jobs
are granted in enqueue order and the queue ends empty. -/
theorem fifo_claim_order_witness :
    (([demoJob, demoJob2] : List Job).map (fun j => j.jobId)).Nodup
    ∧ (grantedJobIds (claimSeq (enqueueAll initialState [demoJob, demoJob2])
          ["w-1", "w-2", "w-3"]).1
        = (([demoJob, demoJob2] : List Job).map (fun j => j.jobId)).take 3
      ∧ (claimSeq (enqueueAll initialState [demoJob, demoJob2])
          ["w-1", "w-2", "w-3"]).2.queue
        = (([demoJob, demoJob2] : List Job).map (fun j => j.jobId)).drop 3) :=
  ⟨by decide, fifo_claim_order [demoJob, demoJob2] ["w-1", "w-2", "w-3"] (by decide)⟩

/-! ## C5 — each pending job is granted exactly once -/

/-- C5: concurrent claim requests, serialized by the dispatcher's single
mutual-exclusion discipline into an arbitrary order `ws`, against a
well-formed queue of `N` pending jobs with `|ws| ≥ N`: the granted jobs
are exactly the `N` queued ids (so exactly `N` of the calls succeed), no
job is granted to more than one requester, the queue is empty afterwards,
and every subsequent claim call observes the empty queue and returns
"no job available". -/
theorem concurrent_claims_exactly_once (s : DispatcherState) (ws ws' : List String)
    (hwf : wfQueue s = true) (hnd : s.queue.Nodup)
    (hlen : s.queue.length ≤ ws.length) :
    grantedJobIds (claimSeq s ws).1 = s.queue
    ∧ (grantedJobIds (claimSeq s ws).1).Nodup
    ∧ (claimSeq s ws).2.queue = []
    ∧ (claimSeq (claimSeq s ws).2 ws').1 = List.replicate ws'.length .noJob := by
  obtain ⟨h1, h2⟩ := claimSeq_take_drop ws s hwf
  have htake : s.queue.take ws.length = s.queue := List.take_of_length_le hlen
  have hdrop : s.queue.drop ws.length = [] := List.drop_eq_nil_of_le hlen
  have hgrant : grantedJobIds (claimSeq s ws).1 = s.queue := by rw [h1, htake]
  have hempty : (claimSeq s ws).2.queue = [] := by rw [h2, hdrop]
  refine ⟨hgrant, ?_, hempty, ?_⟩
  · rw [hgrant]; exact hnd
  · have := claimSeq_empty_queue ws' (claimSeq s ws).2 hempty
    exact congrArg Prod.fst this

/-- Witness for C5: a two-job queue, two claimers, then one late claimer. -/
theorem concurrent_claims_exactly_once_witness :
    wfQueue (enqueueAll initialState [demoJob, demoJob2]) = true
    ∧ (enqueueAll initialState [demoJob, demoJob2]).queue.Nodup
    ∧ (enqueueAll initialState [demoJob, demoJob2]).queue.length ≤ 2
    ∧ (grantedJobIds (claimSeq (enqueueAll initialState [demoJob, demoJob2])
          ["w-1", "w-2"]).1
        = (enqueueAll initialState [demoJob, demoJob2]).queue
      ∧ (grantedJobIds (claimSeq (enqueueAll initialState [demoJob, demoJob2])
          ["w-1", "w-2"]).1).Nodup
      ∧ (claimSeq (enqueueAll initialState [demoJob, demoJob2]) ["w-1", "w-2"]).2.queue = []
      ∧ (claimSeq (claimSeq (enqueueAll initialState [demoJob, demoJob2])
          ["w-1", "w-2"]).2 ["w-3"]).1 = List.replicate 1 .noJob) :=
  ⟨by decide, by decide, by decide,
   concurrent_claims_exactly_once (enqueueAll initialState [demoJob, demoJob2])
     ["w-1", "w-2"] ["w-3"] (by decide) (by decide) (by decide)⟩

/-! ## C6 — terminal reports are final -/

/-- A successful terminal report produces exactly the state in which the
claim is removed from the active set and recorded as closed. -/
lemma report_terminal_state (s : DispatcherState) (cid wid : String)
    (st : ReportStatus) (logs : Option String) (meta : List (String × String))
    (s' : DispatcherState) (hterm : st.isTerminal = true)
    (hrep : reportStatus s cid wid st logs meta = (.ok, s')) :
    s'.active = s.active.filter (fun a => !(a.1 = cid))
    ∧ s'.closed = s.closed ++ [cid] := by
  unfold reportStatus at hrep
  split at hrep
  · exact absurd (congrArg Prod.fst hrep) (by simp)
  · split at hrep
    · exact absurd (congrArg Prod.fst hrep) (by simp)
    · split at hrep
      · exact absurd (congrArg Prod.fst hrep) (by simp)
      · simp only [hterm, if_true] at hrep
        rw [Prod.mk.injEq] at hrep
        rw [← hrep.2]
        exact ⟨rfl, rfl⟩

/-- `reportStatus` never removes a claim id from the closed set. -/
lemma reportStatus_closed_mono (s : DispatcherState) (cid : String)
    (cid' wid' : String) (st' : ReportStatus) (l' : Option String)
    (m' : List (String × String)) (h : cid ∈ s.closed) :
    cid ∈ (reportStatus s cid' wid' st' l' m').2.closed := by
  unfold reportStatus
  split
  · exact h
  · split
    · exact h
    · split
      · exact h
      · dsimp only
        split
        · exact List.mem_append_left _ h
        · exact h

/-- Closedness of a claim id survives any further sequence of reports. -/
lemma reportSeq_closed_mono (cs : List ReportCall) (s : DispatcherState)
    (cid : String) (h : cid ∈ s.closed) : cid ∈ (reportSeq s cs).closed := by
  induction cs generalizing s with
  | nil => exact h
  | cons c cs ih =>
    exact ih _ (reportStatus_closed_mono s cid c.claimId c.workerId c.status c.logs c.metadata h)

/-- A report against a closed claim fails with `ClaimClosed` and leaves the
whole dispatcher state — job records included — untouched. -/
lemma report_on_closed (s : DispatcherState) (cid wid : String)
    (st : ReportStatus) (l : Option String) (m : List (String × String))
    (h : cid ∈ s.closed) :
    reportStatus s cid wid st l m = (.err .claimClosed, s) := by
  unfold reportStatus
  rw [if_pos h]

/-- C6: once `reportStatus` accepts a terminal status (`succeeded` or
`failed`) for a claim, that claim is removed from the active-claims set,
and after any further sequence of reports whatsoever, every subsequent
report against the same `claimId` — any worker, any status — fails with
`ClaimClosed` and leaves the state (hence the job's now-permanent record)
completely unchanged. -/
theorem terminal_report_closes_claim (s : DispatcherState) (cid wid : String)
    (st : ReportStatus) (logs : Option String) (meta : List (String × String))
    (s' : DispatcherState)
    (hterm : st.isTerminal = true)
    (hrep : reportStatus s cid wid st logs meta = (.ok, s')) :
    (∀ a ∈ s'.active, a.1 ≠ cid)
    ∧ ∀ (cs : List ReportCall) (wid' : String) (st' : ReportStatus)
        (l' : Option String) (m' : List (String × String)),
        reportStatus (reportSeq s' cs) cid wid' st' l' m'
          = (.err .claimClosed, reportSeq s' cs) := by
  obtain ⟨hact, hcl⟩ := report_terminal_state s cid wid st logs meta s' hterm hrep
  constructor
  · intro a ha
    rw [hact] at ha
    have hmem := List.mem_filter.mp ha
    simpa using hmem.2
  · intro cs wid' st' l' m'
    apply report_on_closed
    apply reportSeq_closed_mono
    rw [hcl]
    exact List.mem_append_right _ (by simp)

/-- State after enqueuing the demo job and claiming it as worker `w-1`. -/
def c6s1 : DispatcherState := (claim (enqueue initialState demoJob).2 "w-1").2

/-- State after `w-1` reports the claim `c-1` as succeeded. -/
def c6s2 : DispatcherState :=
  (reportStatus c6s1 "c-1" "w-1" .succeeded (some "done") []).2

/-- Witness for C6: the §8 scenario — enqueue `demo-1`, claim it as `c-1`,
report `succeeded`; a later report on `c-1` (even after an interleaved
report attempt) fails with `ClaimClosed` and changes nothing. -/
theorem terminal_report_closes_claim_witness :
    ReportStatus.isTerminal .succeeded = true
    ∧ reportStatus c6s1 "c-1" "w-1" .succeeded (some "done") [] = (.ok, c6s2)
    ∧ reportStatus (reportSeq c6s2 [⟨"c-1", "w-1", .running, none, []⟩])
        "c-1" "w-2" .failed none []
        = (.err .claimClosed, reportSeq c6s2 [⟨"c-1", "w-1", .running, none, []⟩]) :=
  ⟨rfl, by decide,
   (terminal_report_closes_claim c6s1 "c-1" "w-1" .succeeded (some "done") []
       c6s2 rfl (by decide)).2
     [⟨"c-1", "w-1", .running, none, []⟩] "w-2" .failed none []⟩
